import Mathlib

/-!
Verification development for the cadastre-viz parcel resolution pipeline.

The TypeScript sources are shallowly embedded as Lean definitions:

* `src/services/regexService.ts` — the deterministic pattern extractor is
  embedded with a small backtracking regular-expression engine whose
  priority semantics (leftmost alternative first, greedy/lazy quantifier
  preference) follow the JavaScript `RegExp` backtracking behaviour; the
  two patterns of the source are transcribed literally, byte for byte
  (the source file stores the number-marker literal as the two code
  points `N` `U+C9F8`, the result of a text-encoding corruption of
  `N°`).
* `src/services/cadastreService.ts` — the two lookup functions are
  embedded over an explicit fetch oracle; the JavaScript `try`/`catch`
  blocks become an `Except`-level computation plus a catch wrapper, and
  every HTTP request the code would issue is recorded in a trace.
* `src/App.tsx` (`handleProcess`) — the sequential per-record resolution
  loop becomes a structurally recursive loop over the record array that
  records every `setParcels` publication in order.
* `src/App.tsx` (`calculateGeoJsonArea`, `formatArea`, GPX export
  naming) — pure helpers; JavaScript floating-point numbers are
  idealised as an arbitrary linear ordered field with the trigonometric
  primitive passed as a parameter, and `formatArea`'s numeric input as a
  rational number.
-/

/-! ## JavaScript character classes and string helpers -/

/-- The character class recognised by the JavaScript `\s` escape
(whitespace, line terminators and the BOM).  `[\s\t]` in the source
patterns denotes exactly this set. -/
def jsWhitespace (c : Char) : Bool :=
  c = ' ' ∨ c = '\t' ∨ c = '\n' ∨ (c = Char.ofNat 0x0B) ∨ (c = Char.ofNat 0x0C) ∨
  c = '\r' ∨ c = Char.ofNat 0xA0 ∨ c = Char.ofNat 0x1680 ∨
  (Char.ofNat 0x2000 ≤ c ∧ c ≤ Char.ofNat 0x200A) ∨
  c = Char.ofNat 0x2028 ∨ c = Char.ofNat 0x2029 ∨ c = Char.ofNat 0x202F ∨
  c = Char.ofNat 0x205F ∨ c = Char.ofNat 0x3000 ∨ c = Char.ofNat 0xFEFF

/-- The JavaScript `.` (dot) character class without the `s` flag: every
character except a line terminator. -/
def jsDot (c : Char) : Bool :=
  ¬ (c = '\n' ∨ c = '\r' ∨ c = Char.ofNat 0x2028 ∨ c = Char.ofNat 0x2029)

/-- The JavaScript `\d` escape. -/
def jsDigit (c : Char) : Bool := '0' ≤ c ∧ c ≤ '9'

/-- The character class `[A-Z0-9]` under the `i` flag. -/
def alnumClassI (c : Char) : Bool :=
  ('A' ≤ c ∧ c ≤ 'Z') ∨ ('a' ≤ c ∧ c ≤ 'z') ∨ ('0' ≤ c ∧ c ≤ '9')

/-- `String.prototype.trim`: strip `\s` characters from both ends. -/
def jsTrimList (s : List Char) : List Char :=
  ((s.dropWhile jsWhitespace).reverse.dropWhile jsWhitespace).reverse

/-- `String.prototype.trim` on `String`. -/
def jsTrim (s : String) : String := String.mk (jsTrimList s.data)

/-- `String.prototype.toUpperCase` (ASCII range, sufficient for the
characters the extractor can capture). -/
def jsToUpper (s : String) : String := String.mk (s.data.map Char.toUpper)

/-- `String.prototype.padStart(4, '0')` as used on parcel numbers. -/
def padStart4 (s : String) : String :=
  if 4 ≤ s.length then s else String.mk (List.replicate (4 - s.length) '0') ++ s

/-- `String.prototype.split('\n')`: split on every newline, keeping
empty segments (JavaScript semantics). -/
def splitLines : List Char → List (List Char)
  | [] => [[]]
  | c :: rest =>
    match splitLines rest with
    | [] => [[]]
    | l :: ls => if c = '\n' then [] :: l :: ls else (c :: l) :: ls

/-! ## A backtracking regular-expression engine

The engine implements exactly the JavaScript backtracking priority
order: an alternation tries its left branch first, a greedy quantifier
prefers to consume more, a lazy quantifier prefers to consume less, and
the first complete match (in this priority order) determines the
captured groups. -/

/-- Regular expression syntax.  Character classes are predicates;
case-insensitive literals are built from classes by the smart
constructors below. -/
inductive RE where
  | eps : RE
  | cls (p : Char → Bool) : RE
  | cat (a b : RE) : RE
  | alt (a b : RE) : RE
  | starGreedy (r : RE) : RE
  | starLazy (r : RE) : RE
  | grp (i : Nat) (r : RE) : RE

/-- Captured groups: group index paired with the consumed characters.
The most recent capture for an index is first in the list. -/
abbrev Caps := List (Nat × List Char)

/-- The backtracking matcher, in continuation-passing style.  `fuel`
bounds the recursion depth; every alternative of a node is explored with
the same fuel, so fuel only limits match length, not backtracking
breadth.  Quantifier iterations that consume no input are cut off, which
matches the JavaScript empty-iteration rule (no body of the source
patterns can match empty anyway). -/
def reRun (fuel : Nat) (re : RE) (s : List Char) (caps : Caps)
    (k : List Char → Caps → Option Caps) : Option Caps :=
  match fuel with
  | 0 => none
  | fuel + 1 =>
    match re with
    | .eps => k s caps
    | .cls p =>
      match s with
      | [] => none
      | c :: rest => if p c then k rest caps else none
    | .cat a b => reRun fuel a s caps (fun s1 c1 => reRun fuel b s1 c1 k)
    | .alt a b =>
      match reRun fuel a s caps k with
      | some r => some r
      | none => reRun fuel b s caps k
    | .starGreedy r =>
      match reRun fuel r s caps (fun s1 c1 =>
          if s1.length < s.length then reRun fuel (.starGreedy r) s1 c1 k else none) with
      | some res => some res
      | none => k s caps
    | .starLazy r =>
      match k s caps with
      | some res => some res
      | none =>
        reRun fuel r s caps (fun s1 c1 =>
          if s1.length < s.length then reRun fuel (.starLazy r) s1 c1 k else none)
    | .grp i r =>
      reRun fuel r s caps (fun s1 c1 =>
        k s1 ((i, s.take (s.length - s1.length)) :: c1))

/-- A case-insensitive literal (the source patterns carry the `i` flag). -/
def litI (cs : List Char) : RE :=
  cs.foldr (fun c acc => RE.cat (RE.cls (fun d => d.toLower = c.toLower)) acc) RE.eps

/-- Greedy `?`. -/
def optGreedy (r : RE) : RE := RE.alt r RE.eps

/-- Greedy `+` of a class. -/
def plusGreedy (p : Char → Bool) : RE := RE.cat (.cls p) (.starGreedy (.cls p))

/-- Greedy `{1,2}` of a class. -/
def rep1to2 (p : Char → Bool) : RE := RE.cat (.cls p) (optGreedy (.cls p))

/-- Lazy `+` of a class, as in `(.+?)`. -/
def plusLazy (p : Char → Bool) : RE := RE.cat (.cls p) (.starLazy (.cls p))

/-- Match a `^...$`-anchored pattern against a whole string, as
`String.prototype.match` does for the source patterns, returning the
captures of the highest-priority match. -/
def reMatch (re : RE) (s : List Char) : Option Caps :=
  reRun (s.length * 8 + 200) re s [] (fun rest caps => if rest = [] then some caps else none)

/-! ## The deterministic extractor (`src/services/regexService.ts`) -/

/-- The corrupted code point `U+C9F8` that the source file stores where
`°` (`U+00B0`) was intended: the regex literal reads `N` `U+C9F8`. -/
def mojibakeChar : Char := Char.ofNat 0xC9F8

/-- Pattern 1 of the source, transcribed literally:
`/^(.+?)[\s\t]+(?:S|Section|Sec\.?|Sect\.?)[\s\t]+([A-Z0-9]{1,2})[\s\t]+(?:N째|No|N|Num|Numero)?\.?[\s\t]*(\d+)$/i`. -/
def patternA : RE :=
  .cat (.grp 1 (plusLazy jsDot))
  (.cat (plusGreedy jsWhitespace)
  (.cat (.alt (litI ['S'])
        (.alt (litI ['S','e','c','t','i','o','n'])
        (.alt (.cat (litI ['S','e','c']) (optGreedy (.cls (fun c => c = '.'))))
              (.cat (litI ['S','e','c','t']) (optGreedy (.cls (fun c => c = '.')))))))
  (.cat (plusGreedy jsWhitespace)
  (.cat (.grp 2 (rep1to2 alnumClassI))
  (.cat (plusGreedy jsWhitespace)
  (.cat (optGreedy (.alt (litI ['N', mojibakeChar])
                   (.alt (litI ['N','o'])
                   (.alt (litI ['N'])
                   (.alt (litI ['N','u','m'])
                         (litI ['N','u','m','e','r','o']))))))
  (.cat (optGreedy (.cls (fun c => c = '.')))
  (.cat (.starGreedy (.cls jsWhitespace))
        (.grp 3 (plusGreedy jsDigit))))))))))

/-- Pattern 2 of the source, transcribed literally:
`/^(.+?)[\s\t]+([A-Z0-9]{1,2})[\s\t]+(\d+)$/i`. -/
def patternB : RE :=
  .cat (.grp 1 (plusLazy jsDot))
  (.cat (plusGreedy jsWhitespace)
  (.cat (.grp 2 (rep1to2 alnumClassI))
  (.cat (plusGreedy jsWhitespace)
        (.grp 3 (plusGreedy jsDigit)))))

/-- The extractor's output triple (`{ communeName, section, numero }`).
The `section` field carries a Lean-friendly name. -/
structure ParcelTriple where
  communeName : String
  sectionCode : String
  numero : String
deriving DecidableEq, Repr

/-- Read one captured group from a successful match. -/
def capStr (caps : Caps) (i : Nat) : String :=
  String.mk ((caps.lookup i).getD [])

/-- `parseParcelTextRegex` from `src/services/regexService.ts`: split on
newlines, drop blank lines, and for each trimmed line try Pattern 1 then
Pattern 2, building the triple from the captures exactly as the source
does (`match[1].trim()`, `match[2].toUpperCase()`, `match[3]`). -/
def parseParcelTextRegex (inputText : String) : List ParcelTriple :=
  let lines := (splitLines inputText.data).filter (fun line => jsTrimList line ≠ [])
  lines.foldr (fun line acc =>
    let cleanLine := jsTrimList line
    match reMatch patternA cleanLine with
    | some caps =>
        { communeName := jsTrim (capStr caps 1),
          sectionCode := jsToUpper (capStr caps 2),
          numero := capStr caps 3 } :: acc
    | none =>
      match reMatch patternB cleanLine with
      | some caps =>
          { communeName := jsTrim (capStr caps 1),
            sectionCode := jsToUpper (capStr caps 2),
            numero := capStr caps 3 } :: acc
      | none => acc) []

/-- Pattern 1 as the specification describes it (`Modelled from the
spec:` the number-marker vocabulary contains `N°`, the intended content
of the corrupted literal).  Identical to `patternA` except for the one
code point. -/
def patternAIntended : RE :=
  .cat (.grp 1 (plusLazy jsDot))
  (.cat (plusGreedy jsWhitespace)
  (.cat (.alt (litI ['S'])
        (.alt (litI ['S','e','c','t','i','o','n'])
        (.alt (.cat (litI ['S','e','c']) (optGreedy (.cls (fun c => c = '.'))))
              (.cat (litI ['S','e','c','t']) (optGreedy (.cls (fun c => c = '.')))))))
  (.cat (plusGreedy jsWhitespace)
  (.cat (.grp 2 (rep1to2 alnumClassI))
  (.cat (plusGreedy jsWhitespace)
  (.cat (optGreedy (.alt (litI ['N', Char.ofNat 0xB0])
                   (.alt (litI ['N','o'])
                   (.alt (litI ['N'])
                   (.alt (litI ['N','u','m'])
                         (litI ['N','u','m','e','r','o']))))))
  (.cat (optGreedy (.cls (fun c => c = '.')))
  (.cat (.starGreedy (.cls jsWhitespace))
        (.grp 3 (plusGreedy jsDigit))))))))))

/-! ## The network services (`src/services/cadastreService.ts`)

`fetch` and `response.json()` are modelled by an oracle: a fetch either
rejects (network error), or returns a response with an `ok` flag whose
body parse either throws or yields a JSON value (possibly `null`).
The JavaScript `try { ... } catch { return null }` structure is embedded
as a computation in `Except Unit` (an `.error` is a thrown exception)
wrapped by a catch that maps any exception to `none`.  Every request a
function would issue is recorded in a trace so that retry behaviour is
part of the embedding. -/

/-- Outcome of `response.json()`: a parse exception or a value
(`.value none` is a parsed JSON `null`). -/
inductive JsonOutcome (A : Type) where
  | throwJson : JsonOutcome A
  | value (a : Option A) : JsonOutcome A
deriving DecidableEq

/-- Outcome of one `fetch`: a rejected promise, or a response carrying
its `ok` flag and the outcome of `response.json()`.  `A` is the shape of
a successfully parsed body. -/
inductive FetchOutcome (A : Type) where
  | reject : FetchOutcome A
  | resp (ok : Bool) (body : JsonOutcome A) : FetchOutcome A
deriving DecidableEq

/-- The commune lookup oracle: the parsed body of
`GET /communes?nom=...` is the list of INSEE codes of the returned
records (`data[i].code`), the only field the source reads. -/
abbrev CommuneFetch := String → FetchOutcome (List String)

/-- The parcel lookup oracle, keyed by the three query parameters
`code_insee`, `section`, `numero`.  `J` is the (opaque) shape of the
GeoJSON body. -/
abbrev ParcelFetch (J : Type) := String → String → String → FetchOutcome J

/-- One request to the parcel endpoint, as recorded in the trace. -/
structure GeoRequest where
  codeInsee : String
  sectionParam : String
  numeroParam : String
deriving DecidableEq, Repr

/-- The body of `getInseeCode` without its `catch`: fuzzy-search the
commune, return `null` on a non-OK response, otherwise the `code` of the
first record if any.  An `.error` is an uncaught exception. -/
def getInseeCodeExc (fetchCommunes : CommuneFetch) (communeName : String) :
    Except Unit (Option String) :=
  match fetchCommunes communeName with
  | .reject => .error ()
  | .resp false _ => .ok none
  | .resp true .throwJson => .error ()
  | .resp true (.value none) => .ok none
  | .resp true (.value (some [])) => .ok none
  | .resp true (.value (some (code :: _))) => .ok (some code)

/-- `getInseeCode`: the body above wrapped in the source's
`try`/`catch`, which maps any exception to `null`. -/
def getInseeCode (fetchCommunes : CommuneFetch) (communeName : String) : Option String :=
  match getInseeCodeExc fetchCommunes communeName with
  | .ok v => v
  | .error _ => none

/-- The body of `getParcelGeometry` without its `catch`, paired with the
trace of issued requests: pad the numero to 4 digits, query, and on a
non-OK response retry exactly once with a zero-padded section when the
section is a single character. -/
def getParcelGeometryExc {J : Type} (fetchParcelle : ParcelFetch J)
    (insee sectionArg numero : String) : Except Unit (Option J) × List GeoRequest :=
  let formattedNumero := padStart4 numero
  let q1 : GeoRequest := ⟨insee, sectionArg, formattedNumero⟩
  match fetchParcelle insee sectionArg formattedNumero with
  | .reject => (.error (), [q1])
  | .resp true .throwJson => (.error (), [q1])
  | .resp true (.value v) => (.ok v, [q1])
  | .resp false _ =>
    if sectionArg.length = 1 then
      let retrySection := "0" ++ sectionArg
      let q2 : GeoRequest := ⟨insee, retrySection, formattedNumero⟩
      match fetchParcelle insee retrySection formattedNumero with
      | .reject => (.error (), [q1, q2])
      | .resp true .throwJson => (.error (), [q1, q2])
      | .resp true (.value v) => (.ok v, [q1, q2])
      | .resp false _ => (.ok none, [q1, q2])
    else (.ok none, [q1])

/-- `getParcelGeometry`: the body above wrapped in the source's
`try`/`catch`. -/
def getParcelGeometry {J : Type} (fetchParcelle : ParcelFetch J)
    (insee sectionArg numero : String) : Option J × List GeoRequest :=
  match getParcelGeometryExc fetchParcelle insee sectionArg numero with
  | (.ok v, t) => (v, t)
  | (.error _, t) => (none, t)

/-! ## The resolution run (`handleProcess` in `src/App.tsx`)

The loop body of `handleProcess` is embedded record by record: each
iteration marks record `i` as loading, publishes the whole list
(`setParcels([...updatedParcels])`), resolves the commune, and either
`continue`s on a failed commune lookup (note: without publishing) or
resolves the geometry, stores the terminal record and publishes again.
Every published list is recorded, in order, in the run trace. -/

/-- `ParsedParcel.status` (`src/types.ts`). -/
inductive Status where
  | pending
  | loading
  | success
  | error
deriving DecidableEq, Repr

/-- `ParsedParcel` (`src/types.ts`).  The session-unique `id` is
modelled by the record's index in the run; `geoJson` is the opaque
parsed body of the geometry service, of type `J`. -/
structure ParsedParcel (J : Type) where
  id : Nat
  rawText : String
  communeName : String
  inseeCode : Option String
  sectionCode : String
  numero : String
  status : Status
  geoJson : Option J
  errorMessage : Option String
deriving DecidableEq, Repr

/-- The initial record built from an extracted triple
(`parsedRaw.map((p, idx) => ({...status: 'pending'}))`). -/
def initRecord {J : Type} (idx : Nat) (p : ParcelTriple) : ParsedParcel J :=
  { id := idx,
    rawText := p.communeName ++ " " ++ p.sectionCode ++ " " ++ p.numero,
    communeName := p.communeName,
    inseeCode := none,
    sectionCode := p.sectionCode,
    numero := p.numero,
    status := .pending,
    geoJson := none,
    errorMessage := none }

/-- Result of resolving one record: either the commune lookup failed
(the loop `continue`s without publishing) or both stages ran, with the
geometry requests that were issued. -/
inductive StageResult (J : Type) where
  | communeFailed (r : ParsedParcel J) : StageResult J
  | resolved (r : ParsedParcel J) (reqs : List GeoRequest) : StageResult J
deriving DecidableEq

/-- The record held in a `StageResult`. -/
def StageResult.record {J : Type} : StageResult J → ParsedParcel J
  | .communeFailed r => r
  | .resolved r _ => r

/-- The environment of a resolution run: the two fetch oracles together
with the shape function `featuresLen`, which models the JavaScript
access `geoJson.features` (`none` when the parsed body has no `features`
array, otherwise the array's length). -/
structure ResolveEnv (J : Type) where
  fetchCommunes : CommuneFetch
  fetchParcelle : ParcelFetch J
  featuresLen : J → Option Nat

/-- One iteration body of the `handleProcess` loop, acting on the record
`p` captured before the `loading` update.  Mirrors the source:
commune lookup failure yields the `"Commune not found"` error record
(stage 2 skipped); otherwise the geometry is fetched and the record
becomes `success` exactly when a parsed body with a non-empty `features`
array came back, and otherwise the `"Parcel geometry not found in
Cadastre"` error record that still retains the INSEE code. -/
def resolveRecord {J : Type} (env : ResolveEnv J) (p : ParsedParcel J) : StageResult J :=
  match getInseeCode env.fetchCommunes p.communeName with
  | none =>
      .communeFailed { p with status := .error, errorMessage := some "Commune not found" }
  | some insee =>
      let (geoJson, reqs) := getParcelGeometry env.fetchParcelle insee p.sectionCode p.numero
      match geoJson with
      | some j =>
        match env.featuresLen j with
        | some n =>
          if 0 < n then
            .resolved { p with inseeCode := some insee, geoJson := some j,
                               status := .success } reqs
          else
            .resolved { p with inseeCode := some insee, status := .error,
                               errorMessage := some "Parcel geometry not found in Cadastre" } reqs
        | none =>
            .resolved { p with inseeCode := some insee, status := .error,
                               errorMessage := some "Parcel geometry not found in Cadastre" } reqs
      | none =>
          .resolved { p with inseeCode := some insee, status := .error,
                             errorMessage := some "Parcel geometry not found in Cadastre" } reqs

/-- Everything observable about a resolution run: the lists published by
`setParcels` in order, the geometry requests issued (tagged with the
index of the record that caused them), and the final record list. -/
structure RunResult (J : Type) where
  pubs : List (List (ParsedParcel J))
  geoTrace : List (Nat × GeoRequest)
  final : List (ParsedParcel J)
deriving DecidableEq

/-- The `for` loop of `handleProcess`, processing records from index `i`
on.  `fuel` counts the remaining iterations (the run instantiates it
with the array length, making the guard equivalent to the source's
`i < updatedParcels.length`).  Each iteration publishes the list with
record `i` set to `loading`; a commune failure stores the error record
and `continue`s without a publication, any other outcome stores the
terminal record and publishes the list again. -/
def resolveLoop {J : Type} (env : ResolveEnv J) :
    Nat → List (ParsedParcel J) → Nat → RunResult J
  | 0, arr, _ => ⟨[], [], arr⟩
  | fuel + 1, arr, i =>
    if h : i < arr.length then
      let p := arr.get ⟨i, h⟩
      let arrLoading := arr.set i { p with status := .loading }
      match resolveRecord env p with
      | .communeFailed r =>
        let arrDone := arrLoading.set i r
        let rest := resolveLoop env fuel arrDone (i + 1)
        ⟨arrLoading :: rest.pubs, rest.geoTrace, rest.final⟩
      | .resolved r reqs =>
        let arrDone := arrLoading.set i r
        let rest := resolveLoop env fuel arrDone (i + 1)
        ⟨arrLoading :: arrDone :: rest.pubs,
         reqs.map (fun q => (i, q)) ++ rest.geoTrace,
         rest.final⟩
    else ⟨[], [], arr⟩

/-- The resolution phase of `handleProcess`, from the extracted triples
on: clear the list (`setParcels([])`), publish the initial all-pending
list (`setParcels(initialParcels)`), then run the sequential loop. -/
def handleProcess {J : Type} (env : ResolveEnv J) (parsedRaw : List ParcelTriple) :
    RunResult J :=
  let initialParcels : List (ParsedParcel J) :=
    parsedRaw.enum.map (fun pi => initRecord pi.1 pi.2)
  let rest := resolveLoop env initialParcels.length initialParcels 0
  ⟨[] :: initialParcels :: rest.pubs, rest.geoTrace, rest.final⟩

/-! ## The geometry processor (`calculateGeoJsonArea` in `src/App.tsx`)

JavaScript floating-point arithmetic is idealised: coordinates live in
an arbitrary linear ordered field `K`, and `Math.sin` / `Math.PI` are
passed in as a function `sin : K → K` and a constant `piK : K`.  All
definitions are polymorphic, so the code and the specification formula
are compared as exact field expressions. -/

/-- A GeoJSON geometry as the area code inspects it: `geom.type` is
`Polygon` (a list of rings, the first being the exterior),
`MultiPolygon`, or anything else (which the code ignores).  A ring is a
list of `[longitude, latitude]` pairs. -/
inductive Geom (K : Type) where
  | polygon (coordinates : List (List (K × K))) : Geom K
  | multiPolygon (coordinates : List (List (List (K × K)))) : Geom K
  | otherType : Geom K

/-- A GeoJSON feature: the code only reads `f.geometry`, skipping
features without one. -/
structure Feature (K : Type) where
  geometry : Option (Geom K)

/-- The document passed to the helpers: a `FeatureCollection`, or any
other value, which the code wraps as the single pseudo-feature
`[geoJson]`. -/
inductive GeoDoc (K : Type) where
  | featureCollection (features : List (Feature K)) : GeoDoc K
  | singleFeature (f : Feature K) : GeoDoc K

/-- `geoJson.type === 'FeatureCollection' ? geoJson.features : [geoJson]`. -/
def docFeatures {K : Type} : GeoDoc K → List (Feature K)
  | .featureCollection fs => fs
  | .singleFeature f => [f]

/-- `earthRadius = 6378137` (metres). -/
def earthRadius {K : Type} [LinearOrderedField K] : K := 6378137

/-- One accumulation term of the ring loop:
`((p2Lng - p1Lng) * (π/180)) * (2 + sin(p1Lat * (π/180)) + sin(p2Lat * (π/180)))`. -/
def ringTerm {K : Type} [LinearOrderedField K] (sin : K → K) (piK : K)
    (p1 p2 : K × K) : K :=
  ((p2.1 - p1.1) * (piK / 180)) * (2 + sin (p1.2 * (piK / 180)) + sin (p2.2 * (piK / 180)))

/-- The `for` loop of `getRingArea`: index `i` runs over the ring and is
paired with index `(i + 1) % coords.length`. -/
def ringSum {K : Type} [LinearOrderedField K] (sin : K → K) (piK : K)
    (coords : List (K × K)) : K :=
  ∑ i in Finset.range coords.length,
    ringTerm sin piK (coords.getD i (0, 0)) (coords.getD ((i + 1) % coords.length) (0, 0))

/-- `getRingArea` from the source: accumulate only when the ring has
more than two vertices, scale by `R·R/2`, return the absolute value. -/
def getRingArea {K : Type} [LinearOrderedField K] (sin : K → K) (piK : K)
    (coords : List (K × K)) : K :=
  |if 2 < coords.length then ringSum sin piK coords * earthRadius * earthRadius / 2 else 0|

/-- The contribution of one feature inside `features.forEach`: nothing
without a geometry, the exterior ring (`geom.coordinates[0]`) of a
polygon, the exterior ring of every member of a multi-polygon, nothing
for other geometry types.  (A syntactically valid GeoJSON polygon always
carries at least one ring; the out-of-range access of the empty
`coordinates` list is totalised with the empty ring.) -/
def featureArea {K : Type} [LinearOrderedField K] (sin : K → K) (piK : K)
    (f : Feature K) : K :=
  match f.geometry with
  | none => 0
  | some (.polygon coordinates) => getRingArea sin piK (coordinates.headD [])
  | some (.multiPolygon coordinates) =>
      (coordinates.map (fun poly => getRingArea sin piK (poly.headD []))).sum
  | some .otherType => 0

/-- `calculateGeoJsonArea` on a non-null document. -/
def calculateGeoJsonAreaDoc {K : Type} [LinearOrderedField K] (sin : K → K) (piK : K)
    (geoJson : GeoDoc K) : K :=
  ((docFeatures geoJson).map (featureArea sin piK)).sum

/-- `calculateGeoJsonArea`, including the `if (!geoJson) return 0`
guard. -/
def calculateGeoJsonArea {K : Type} [LinearOrderedField K] (sin : K → K) (piK : K) :
    Option (GeoDoc K) → K
  | none => 0
  | some geoJson => calculateGeoJsonAreaDoc sin piK geoJson

/-! The same computation as the specification words it (§4.3 of the
spec): "for a ring of (longitude, latitude) vertex pairs, accumulate
over consecutive vertex pairs (wrapping last→first) the term
`(Δlng_rad) * (2 + sin(lat1_rad) + sin(lat2_rad))`, sum across the ring"
— rendered as the sum over the ring zipped with its own rotation — and
the area is "the absolute value of the sum … multiplied by `R²/2`";
"only the outer ring of each polygon is counted …; a geometry collection
contributes the sum of its members' outer-ring areas". -/

/-- Specification formula: the accumulated sum over consecutive vertex
pairs, wrapping last→first. -/
def specRingSum {K : Type} [LinearOrderedField K] (sin : K → K) (piK : K)
    (coords : List (K × K)) : K :=
  ((coords.zip (coords.rotate 1)).map (fun pq => ringTerm sin piK pq.1 pq.2)).sum

/-- Specification formula: outer-ring area, `|sum| · R²/2`. -/
def specOuterRingArea {K : Type} [LinearOrderedField K] (sin : K → K) (piK : K)
    (coords : List (K × K)) : K :=
  |specRingSum sin piK coords| * (earthRadius ^ 2 / 2)

/-- Specification formula: area contributed by one feature (holes
ignored, outer ring only). -/
def specFeatureArea {K : Type} [LinearOrderedField K] (sin : K → K) (piK : K)
    (f : Feature K) : K :=
  match f.geometry with
  | none => 0
  | some (.polygon coordinates) => specOuterRingArea sin piK (coordinates.headD [])
  | some (.multiPolygon coordinates) =>
      (coordinates.map (fun poly => specOuterRingArea sin piK (poly.headD []))).sum
  | some .otherType => 0

/-- Specification formula: a collection contributes the sum of its
members' outer-ring areas. -/
def specDocArea {K : Type} [LinearOrderedField K] (sin : K → K) (piK : K)
    (geoJson : GeoDoc K) : K :=
  ((docFeatures geoJson).map (specFeatureArea sin piK)).sum

/-! ## Area display (`formatArea` in `src/App.tsx`)

The numeric input is idealised as a rational number.  The rendered
string depends on the runtime locale, so the result is abstracted to
which branch of the formatter ran and with which rounded value:
`squareMeters n` stands for `n.toLocaleString() + " m²"` and
`hectares s` stands for `(s / 10⁴).toFixed(4) + " ha"` (the payload is
the value rounded to 4 decimal places, scaled by 10⁴). -/

/-- `Math.round`: round half towards positive infinity. -/
def jsRound (x : ℚ) : ℤ := ⌊x + 1 / 2⌋

/-- `toFixed(4)` on a non-negative value: the displayed digits as an
integer scaled by 10⁴ (rounding to nearest, halves away from zero). -/
def toFixed4 (x : ℚ) : ℤ := ⌊x * 10000 + 1 / 2⌋

/-- The three possible renderings of `formatArea`. -/
inductive AreaDisplay where
  | empty : AreaDisplay
  | squareMeters (rounded : ℤ) : AreaDisplay
  | hectares (scaled : ℤ) : AreaDisplay
deriving DecidableEq, Repr

/-- `formatArea` from the source: empty for a zero area, hectares with
4 decimal places above 10 000 m², rounded square metres otherwise. -/
def formatArea (areaSqM : ℚ) : AreaDisplay :=
  if areaSqM = 0 then .empty
  else if 10000 < areaSqM then .hectares (toFixed4 (areaSqM / 10000))
  else .squareMeters (jsRound areaSqM)

/-! ## GPX export naming (`createGpxContent`, `handleExportGPX` in `src/App.tsx`) -/

/-- The GPX document's metadata name:
`` `${parcel.communeName} ${parcel.section} ${parcel.numero}` ``. -/
def gpxMetadataName {J : Type} (parcel : ParsedParcel J) : String :=
  parcel.communeName ++ " " ++ parcel.sectionCode ++ " " ++ parcel.numero

/-- `.replace(/\s+/g, '_')`: every maximal run of whitespace becomes a
single underscore.  The boolean argument tracks whether the previous
character belonged to a whitespace run. -/
def collapseWsAux : Bool → List Char → List Char
  | _, [] => []
  | prevWs, c :: rest =>
    if jsWhitespace c then
      if prevWs then collapseWsAux true rest
      else '_' :: collapseWsAux true rest
    else c :: collapseWsAux false rest

/-- The character class kept by `.replace(/[^a-z0-9_\-\.]/gi, '')`. -/
def keepFileChar (c : Char) : Bool :=
  ('a' ≤ c ∧ c ≤ 'z') ∨ ('A' ≤ c ∧ c ≤ 'Z') ∨ ('0' ≤ c ∧ c ≤ '9') ∨
  c = '_' ∨ c = '-' ∨ c = '.'

/-- The sanitisation chain the specification describes: "whitespace
collapsed to underscores, then any character outside `[a-zA-Z0-9_.-]`
stripped". -/
def sanitizeFileName (name : String) : String :=
  String.mk ((collapseWsAux false name.data).filter keepFileChar)

/-- The file base name actually built in `handleExportGPX`:
`` `${p.communeName}-${p.section}-${p.numero}` `` run through the two
replacements. -/
def exportCleanName {J : Type} (parcel : ParsedParcel J) : String :=
  sanitizeFileName (parcel.communeName ++ "-" ++ parcel.sectionCode ++ "-" ++ parcel.numero)

/-- The per-record field invariant maintained by the resolution run
(claim C3): `geoJson` present exactly on success (and then holding a
body with a non-empty `features` array), `errorMessage` present exactly
on error. -/
def recordInv {J : Type} (featuresLen : J → Option Nat) (r : ParsedParcel J) : Prop :=
  (r.geoJson.isSome ↔ r.status = .success) ∧
  (r.errorMessage.isSome ↔ r.status = .error) ∧
  (∀ j, r.geoJson = some j → ∃ n, featuresLen j = some n ∧ 0 < n)

/-! ## Theorems -/

lemma specRingSum_eq_ringSum {K : Type} [LinearOrderedField K] (sin : K → K) (piK : K)
    (coords : List (K × K)) : specRingSum sin piK coords = ringSum sin piK coords := by
  unfold specRingSum ringSum
  rcases Nat.eq_zero_or_pos coords.length with h0 | hpos
  · rw [List.length_eq_zero] at h0
    subst h0
    simp
  · have hmap : (coords.zip (coords.rotate 1)).map (fun pq => ringTerm sin piK pq.1 pq.2) =
        List.ofFn (fun i : Fin coords.length =>
          ringTerm sin piK (coords.get i)
            (coords.get ⟨((i : Nat) + 1) % coords.length, Nat.mod_lt _ hpos⟩)) := by
      apply List.ext_get
      · simp [List.length_zip, List.length_rotate]
      · intro n h1 h2
        simp only [List.get_map, List.get_zip, List.get_ofFn, List.get_rotate]
        rfl
    rw [hmap, List.sum_ofFn]
    rw [← Fin.sum_univ_eq_sum_range (fun i =>
      ringTerm sin piK (coords.getD i (0, 0))
        (coords.getD ((i + 1) % coords.length) (0, 0))) coords.length]
    apply Finset.sum_congr rfl
    intro i _
    rw [List.getD_eq_getElem _ _ i.isLt, List.getD_eq_getElem _ _ (Nat.mod_lt _ hpos)]
    rfl

lemma specRingSum_degenerate {K : Type} [LinearOrderedField K] (sin : K → K) (piK : K)
    (coords : List (K × K)) (h : coords.length ≤ 2) :
    specRingSum sin piK coords = 0 := by
  match coords with
  | [] => simp [specRingSum]
  | [a] =>
    simp [specRingSum, List.rotate]
    simp [ringTerm]
  | [a, b] =>
    simp [specRingSum, List.rotate]
    simp [ringTerm]
    ring
  | p :: q :: r :: tl => simp at h

lemma getRingArea_eq_specOuterRingArea {K : Type} [LinearOrderedField K] (sin : K → K)
    (piK : K) (coords : List (K × K)) :
    getRingArea sin piK coords = specOuterRingArea sin piK coords := by
  unfold getRingArea specOuterRingArea
  rw [specRingSum_eq_ringSum]
  by_cases h : 2 < coords.length
  · rw [if_pos h]
    have hsplit : ringSum sin piK coords * earthRadius * earthRadius / 2 =
        ringSum sin piK coords * (earthRadius ^ 2 / 2) := by ring
    rw [hsplit, abs_mul, abs_of_nonneg (show (0 : K) ≤ earthRadius ^ 2 / 2 by
      unfold earthRadius; positivity)]
  · rw [if_neg h]
    have hz : ringSum sin piK coords = 0 := by
      rw [← specRingSum_eq_ringSum]
      exact specRingSum_degenerate sin piK coords (by omega)
    rw [hz]
    simp

lemma featureArea_eq_specFeatureArea {K : Type} [LinearOrderedField K] (sin : K → K)
    (piK : K) (f : Feature K) :
    featureArea sin piK f = specFeatureArea sin piK f := by
  unfold featureArea specFeatureArea
  match f with
  | ⟨none⟩ => rfl
  | ⟨some (.polygon cs)⟩ => exact getRingArea_eq_specOuterRingArea sin piK (cs.headD [])
  | ⟨some (.multiPolygon cs)⟩ =>
    have hfun : (fun poly : List (List (K × K)) => getRingArea sin piK (poly.headD [])) =
        (fun poly => specOuterRingArea sin piK (poly.headD [])) :=
      funext (fun poly => getRingArea_eq_specOuterRingArea sin piK (poly.headD []))
    simp only [hfun]
  | ⟨some .otherType⟩ => rfl

lemma featureArea_nonneg {K : Type} [LinearOrderedField K] (sin : K → K) (piK : K)
    (f : Feature K) : 0 ≤ featureArea sin piK f := by
  unfold featureArea
  match f with
  | ⟨none⟩ => exact le_refl 0
  | ⟨some (.polygon cs)⟩ => exact abs_nonneg _
  | ⟨some (.multiPolygon cs)⟩ =>
    apply List.sum_nonneg
    intro x hx
    obtain ⟨poly, _, rfl⟩ := List.mem_map.mp hx
    exact abs_nonneg _
  | ⟨some .otherType⟩ => exact le_refl 0

/-- C6: the computed area of a geometry equals, for each polygon, the
absolute value of the sum over the outer ring's consecutive vertex pairs
(wrapping last→first) of `(Δlng in radians) * (2 + sin(lat1 in radians)
+ sin(lat2 in radians))`, multiplied by `R²/2` with `R = 6378137`, holes
being ignored; and the area of a feature collection equals the sum of
its members' outer-ring areas.  Stated over any linear ordered field
with `sin` and `π` abstract, so the identity is exact. -/
theorem c6_area_equals_spec_formula {K : Type} [LinearOrderedField K] (sin : K → K) (piK : K)
    (geoJson : GeoDoc K) :
    calculateGeoJsonAreaDoc sin piK geoJson = specDocArea sin piK geoJson := by
  unfold calculateGeoJsonAreaDoc specDocArea
  have hfun : featureArea sin piK = specFeatureArea sin piK :=
    funext (featureArea_eq_specFeatureArea sin piK)
  rw [hfun]

/-- C10: a ring with fewer than 3 vertices contributes exactly 0 to the
computed area (the per-ring accumulation is skipped), a feature without
a geometry field contributes 0, and the area function is total and
non-negative on every input, degenerate geometries included. -/
theorem c10_degenerate_geometry_safety {K : Type} [LinearOrderedField K] (sin : K → K) (piK : K)
    (coords : List (K × K)) (f : Feature K) (geoJson : Option (GeoDoc K))
    (hshort : coords.length < 3) (hnogeom : f.geometry = none) :
    getRingArea sin piK coords = 0 ∧ featureArea sin piK f = 0 ∧
    0 ≤ calculateGeoJsonArea sin piK geoJson := by
  refine ⟨?_, ?_, ?_⟩
  · unfold getRingArea
    rw [if_neg (by omega)]
    exact abs_zero
  · unfold featureArea
    rw [hnogeom]
  · match geoJson with
    | none => exact le_refl 0
    | some g =>
      apply List.sum_nonneg
      intro x hx
      obtain ⟨ft, _, rfl⟩ := List.mem_map.mp hx
      exact featureArea_nonneg sin piK ft

/-- Witness for C10 at the empty ring, a geometry-less feature and the
null document. -/
theorem c10_degenerate_geometry_safety_witness :
    (([] : List (ℚ × ℚ)).length < 3) ∧ ((⟨none⟩ : Feature ℚ).geometry = none) ∧
    (getRingArea (fun _ => 0) 0 ([] : List (ℚ × ℚ)) = 0 ∧
     featureArea (fun _ => 0) 0 (⟨none⟩ : Feature ℚ) = 0 ∧
     0 ≤ calculateGeoJsonArea (fun _ => 0) (0 : ℚ) none) :=
  ⟨by decide, rfl, c10_degenerate_geometry_safety (fun _ => 0) 0 [] ⟨none⟩ none (by decide) rfl⟩

set_option maxRecDepth 8000 in
/-- C2: contrary to the claim, the deterministic extractor yields no
triple at all for `"SCHORBACH S C N° 0584"`: the number-marker literal
in the source regex is the corrupted `N`·U+C9F8, not `N°`, so Pattern A
fails on the claimed input (and Pattern B cannot absorb `N°` either).
The second conjunct shows the intended pattern (the same regex with
`N°`) yields exactly the claimed triple, exposing the code bug. -/
theorem c2_extractor_rejects_intended_marker_input :
    parseParcelTextRegex "SCHORBACH S C N° 0584" = [] ∧
    ((reMatch patternAIntended ("SCHORBACH S C N° 0584".data)).map (fun caps =>
        ({ communeName := jsTrim (capStr caps 1),
           sectionCode := jsToUpper (capStr caps 2),
           numero := capStr caps 3 } : ParcelTriple)) =
      some { communeName := "SCHORBACH", sectionCode := "C", numero := "0584" }) := by
  exact ⟨by decide, by decide⟩

/-- Counterexample for C7: for the record SCHORBACH / C / 0584 the
export file base name is `SCHORBACH-C-0584`, but the sanitised metadata
name is `SCHORBACH_C_0584`; the two differ, so the file name is not
derived from the same name string used as the document's metadata
name. -/
theorem c7_filename_not_from_metadata_name :
    exportCleanName (initRecord (J := Unit) 0 ⟨"SCHORBACH", "C", "0584"⟩) =
      "SCHORBACH-C-0584" ∧
    sanitizeFileName (gpxMetadataName (initRecord (J := Unit) 0 ⟨"SCHORBACH", "C", "0584"⟩)) =
      "SCHORBACH_C_0584" ∧
    exportCleanName (initRecord (J := Unit) 0 ⟨"SCHORBACH", "C", "0584"⟩) ≠
      sanitizeFileName (gpxMetadataName (initRecord (J := Unit) 0 ⟨"SCHORBACH", "C", "0584"⟩)) :=
  ⟨by decide, by decide, by decide⟩

/-- C7 (amended): for every record exported, the track file's name is
derived from the hyphen-joined triple `communeName-section-numero` (not
from the space-joined metadata name): whitespace collapsed to
underscores, then every character outside `[a-zA-Z0-9_.-]` stripped. -/
theorem c7_filename_from_hyphen_joined_name {J : Type} (parcel : ParsedParcel J) :
    exportCleanName parcel =
      sanitizeFileName (parcel.communeName ++ "-" ++ parcel.sectionCode ++ "-" ++ parcel.numero) := rfl

/-- Counterexample for C8: the claim covers every non-negative value,
but at 0 the formatter renders the empty display rather than the rounded
square-metre form. -/
theorem c8_zero_area_renders_empty :
    formatArea 0 = AreaDisplay.empty ∧
    AreaDisplay.empty ≠ AreaDisplay.squareMeters (jsRound 0) :=
  ⟨by decide, by decide⟩

/-- C8 (amended): an area of exactly 0 renders as the empty display;
for every positive area value, values ≤ 10 000 m² render as rounded
square metres (with locale thousands separators, abstracted in
`AreaDisplay.squareMeters`) and values > 10 000 m² render as hectares
(`value / 10000`) with 4 decimal places. -/
theorem c8_positive_area_display_rule (areaSqM : ℚ) (hpos : 0 < areaSqM) :
    formatArea 0 = AreaDisplay.empty ∧
    (areaSqM ≤ 10000 → formatArea areaSqM = AreaDisplay.squareMeters (jsRound areaSqM)) ∧
    (10000 < areaSqM → formatArea areaSqM = AreaDisplay.hectares (toFixed4 (areaSqM / 10000))) := by
  refine ⟨by decide, ?_, ?_⟩
  · intro hle
    unfold formatArea
    rw [if_neg (ne_of_gt hpos), if_neg (not_lt.mpr hle)]
  · intro hgt
    unfold formatArea
    rw [if_neg (ne_of_gt hpos), if_pos hgt]

/-- Witness for C8 at the positive area 3 m². -/
theorem c8_positive_area_display_rule_witness :
    (0 : ℚ) < 3 ∧
    (formatArea 0 = AreaDisplay.empty ∧
     ((3 : ℚ) ≤ 10000 → formatArea 3 = AreaDisplay.squareMeters (jsRound 3)) ∧
     (10000 < (3 : ℚ) → formatArea 3 = AreaDisplay.hectares (toFixed4 (3 / 10000)))) :=
  ⟨by norm_num, c8_positive_area_display_rule 3 (by norm_num)⟩

/-- C9: the two per-record lookup functions never throw or reject —
every transport exception, parse failure, or non-OK response inside
`getInseeCode` and `getParcelGeometry` is caught and mapped to a null
result: whenever the un-caught body ends in an exception the wrapped
function returns `none`, and so do the individual failure modes. -/
theorem c9_lookups_never_throw {J : Type} (fetchCommunes : CommuneFetch) (fetchParcelle : ParcelFetch J)
    (communeName insee sectionArg numero : String) :
    ((getInseeCodeExc fetchCommunes communeName).isOk = false →
        getInseeCode fetchCommunes communeName = none) ∧
    ((getParcelGeometryExc fetchParcelle insee sectionArg numero).1.isOk = false →
        (getParcelGeometry fetchParcelle insee sectionArg numero).1 = none) ∧
    (fetchCommunes communeName = .reject → getInseeCode fetchCommunes communeName = none) ∧
    (∀ body, fetchCommunes communeName = .resp false body →
        getInseeCode fetchCommunes communeName = none) ∧
    (fetchCommunes communeName = .resp true .throwJson →
        getInseeCode fetchCommunes communeName = none) ∧
    (fetchParcelle insee sectionArg (padStart4 numero) = .reject →
        (getParcelGeometry fetchParcelle insee sectionArg numero).1 = none) := by
  refine ⟨?_, ?_, ?_, ?_, ?_, ?_⟩
  · intro h
    unfold getInseeCode
    cases hE : getInseeCodeExc fetchCommunes communeName with
    | ok v => rw [hE] at h; simp [Except.isOk, Except.toBool] at h
    | error e => rfl
  · intro h
    unfold getParcelGeometry
    cases hE : getParcelGeometryExc fetchParcelle insee sectionArg numero with
    | mk e t =>
      cases e with
      | ok v => rw [hE] at h; simp [Except.isOk, Except.toBool] at h
      | error err => rfl
  · intro h
    simp [getInseeCode, getInseeCodeExc, h]
  · intro body h
    simp [getInseeCode, getInseeCodeExc, h]
  · intro h
    simp [getInseeCode, getInseeCodeExc, h]
  · intro h
    simp [getParcelGeometry, getParcelGeometryExc, h]

/-- Witness for C9 on oracles whose every fetch rejects. -/
theorem c9_lookups_never_throw_witness :
    getInseeCode (fun _ => FetchOutcome.reject) "SCHORBACH" = none ∧
    (getParcelGeometry (J := Unit) (fun _ _ _ => FetchOutcome.reject) "57640" "C" "584").1 = none :=
  ⟨(c9_lookups_never_throw (J := Unit) (fun _ => FetchOutcome.reject) (fun _ _ _ => FetchOutcome.reject)
      "SCHORBACH" "57640" "C" "584").2.2.1 rfl,
   (c9_lookups_never_throw (J := Unit) (fun _ => FetchOutcome.reject) (fun _ _ _ => FetchOutcome.reject)
      "SCHORBACH" "57640" "C" "584").2.2.2.2.2 rfl⟩

/-- C4: every geometry request carries the numero zero-padded to 4
digits; if the initial response is not OK and the section is exactly one
character, exactly one retry is made with the section zero-padded to two
characters and the same padded numero; if the retry response is OK and
carries at least one feature the record ends with status success; a
non-single-character section failing is not retried. -/
theorem c4_geometry_padding_and_retry {J : Type} (env : ResolveEnv J) (p : ParsedParcel J)
    (fp : ParcelFetch J) (insee sec num : String) :
    (∀ q ∈ (getParcelGeometry fp insee sec num).2, q.numeroParam = padStart4 num) ∧
    (∀ body, fp insee sec (padStart4 num) = .resp false body → sec.length = 1 →
      (getParcelGeometry fp insee sec num).2 =
        [⟨insee, sec, padStart4 num⟩, ⟨insee, "0" ++ sec, padStart4 num⟩]) ∧
    (∀ body, fp insee sec (padStart4 num) = .resp false body → sec.length ≠ 1 →
      (getParcelGeometry fp insee sec num).2 = [⟨insee, sec, padStart4 num⟩]) ∧
    (∀ body j, fp insee sec (padStart4 num) = .resp false body → sec.length = 1 →
      fp insee ("0" ++ sec) (padStart4 num) = .resp true (.value (some j)) →
      (getParcelGeometry fp insee sec num).1 = some j) ∧
    (∀ body j n, getInseeCode env.fetchCommunes p.communeName = some insee →
      env.fetchParcelle insee p.sectionCode (padStart4 p.numero) = .resp false body →
      p.sectionCode.length = 1 →
      env.fetchParcelle insee ("0" ++ p.sectionCode) (padStart4 p.numero) =
        .resp true (.value (some j)) →
      env.featuresLen j = some n → 0 < n →
      resolveRecord env p = .resolved
        { p with inseeCode := some insee, geoJson := some j, status := .success }
        [⟨insee, p.sectionCode, padStart4 p.numero⟩,
         ⟨insee, "0" ++ p.sectionCode, padStart4 p.numero⟩]) := by
  refine ⟨?_, ?_, ?_, ?_, ?_⟩
  · intro q hq
    rcases h1 : fp insee sec (padStart4 num) with _ | ⟨ok1, b1⟩
    · simp [getParcelGeometry, getParcelGeometryExc, h1] at hq
      subst hq; rfl
    · match ok1, b1 with
      | true, .throwJson =>
        simp [getParcelGeometry, getParcelGeometryExc, h1] at hq
        subst hq; rfl
      | true, .value v =>
        simp [getParcelGeometry, getParcelGeometryExc, h1] at hq
        subst hq; rfl
      | false, b1 =>
        by_cases hlen : sec.length = 1
        · rcases h2 : fp insee ("0" ++ sec) (padStart4 num) with _ | ⟨ok2, b2⟩
          · simp [getParcelGeometry, getParcelGeometryExc, h1, hlen, h2] at hq
            rcases hq with hq | hq <;> (subst hq; rfl)
          · match ok2, b2 with
            | true, .throwJson =>
              simp [getParcelGeometry, getParcelGeometryExc, h1, hlen, h2] at hq
              rcases hq with hq | hq <;> (subst hq; rfl)
            | true, .value v =>
              simp [getParcelGeometry, getParcelGeometryExc, h1, hlen, h2] at hq
              rcases hq with hq | hq <;> (subst hq; rfl)
            | false, b2 =>
              simp [getParcelGeometry, getParcelGeometryExc, h1, hlen, h2] at hq
              rcases hq with hq | hq <;> (subst hq; rfl)
        · simp [getParcelGeometry, getParcelGeometryExc, h1, hlen] at hq
          subst hq; rfl
  · intro body h1 hlen
    rcases h2 : fp insee ("0" ++ sec) (padStart4 num) with _ | ⟨ok2, b2⟩
    · simp [getParcelGeometry, getParcelGeometryExc, h1, hlen, h2]
    · match ok2, b2 with
      | true, .throwJson => simp [getParcelGeometry, getParcelGeometryExc, h1, hlen, h2]
      | true, .value v => simp [getParcelGeometry, getParcelGeometryExc, h1, hlen, h2]
      | false, b2 => simp [getParcelGeometry, getParcelGeometryExc, h1, hlen, h2]
  · intro body h1 hlen
    simp [getParcelGeometry, getParcelGeometryExc, h1, hlen]
  · intro body j h1 hlen h2
    simp [getParcelGeometry, getParcelGeometryExc, h1, hlen, h2]
  · intro body j n hins h1 hlen h2 hfeat hn
    simp [resolveRecord, hins, getParcelGeometry, getParcelGeometryExc, h1, hlen, h2, hfeat, hn]

/-- Witness for C4: a section `C` whose first lookup fails and whose
`0C` retry succeeds with one feature produces a success record. -/
theorem c4_geometry_padding_and_retry_witness :
    resolveRecord
      (⟨fun _ => .resp true (.value (some ["57640"])),
        fun _ s _ => if s = "C" then .resp false (.value none)
                     else .resp true (.value (some ())),
        fun _ => some 1⟩ : ResolveEnv Unit)
      (initRecord 0 ⟨"SCHORBACH", "C", "584"⟩) =
    .resolved
      { initRecord (J := Unit) 0 ⟨"SCHORBACH", "C", "584"⟩ with
        inseeCode := some "57640", geoJson := some (), status := .success }
      [⟨"57640", "C", padStart4 "584"⟩, ⟨"57640", "0C", padStart4 "584"⟩] := by
  exact (c4_geometry_padding_and_retry
      (⟨fun _ => .resp true (.value (some ["57640"])),
        fun _ s _ => if s = "C" then .resp false (.value none)
                     else .resp true (.value (some ())),
        fun _ => some 1⟩ : ResolveEnv Unit)
      (initRecord 0 ⟨"SCHORBACH", "C", "584"⟩)
      (fun _ s _ => if s = "C" then .resp false (.value none)
                    else .resp true (.value (some ())))
      "57640" "C" "584").2.2.2.2 (.value none) () 1
      (by decide) (by decide) (by decide) (by decide) rfl (by decide)

lemma resolveRecord_record_inv {J : Type} (env : ResolveEnv J) (p : ParsedParcel J)
    (hgeo : p.geoJson = none) (herr : p.errorMessage = none) :
    recordInv env.featuresLen (resolveRecord env p).record ∧
    ((resolveRecord env p).record.status = .error ∨
     (resolveRecord env p).record.status = .success) := by
  unfold resolveRecord
  rcases hins : getInseeCode env.fetchCommunes p.communeName with _ | insee <;>
    simp only [hins]
  · exact ⟨⟨by simp [hgeo, StageResult.record], by simp [StageResult.record],
      by simp [hgeo, StageResult.record]⟩, Or.inl rfl⟩
  · rcases hg : getParcelGeometry env.fetchParcelle insee p.sectionCode p.numero with ⟨g, reqs⟩
    simp only [hg]
    rcases g with _ | j
    · exact ⟨⟨by simp [hgeo, StageResult.record], by simp [StageResult.record],
        by simp [hgeo, StageResult.record]⟩, Or.inl rfl⟩
    · rcases hf : env.featuresLen j with _ | n <;> simp only [hf]
      · exact ⟨⟨by simp [hgeo, StageResult.record], by simp [StageResult.record],
          by simp [hgeo, StageResult.record]⟩, Or.inl rfl⟩
      · by_cases hn : 0 < n
        · rw [if_pos hn]
          exact ⟨⟨by simp [StageResult.record], by simp [herr, StageResult.record],
            by simp [StageResult.record, hf, hn]⟩, Or.inr rfl⟩
        · rw [if_neg hn]
          exact ⟨⟨by simp [hgeo, StageResult.record], by simp [StageResult.record],
            by simp [hgeo, StageResult.record]⟩, Or.inl rfl⟩

lemma resolveLoop_pubs_inv {J : Type} (env : ResolveEnv J) :
    ∀ (fuel : Nat) (arr : List (ParsedParcel J)) (i : Nat),
      (∀ r ∈ arr, recordInv env.featuresLen r) →
      (∀ j (hj : j < arr.length), i ≤ j →
        (arr.get ⟨j, hj⟩).status = .pending ∧ (arr.get ⟨j, hj⟩).geoJson = none ∧
        (arr.get ⟨j, hj⟩).errorMessage = none) →
      ∀ snap ∈ (resolveLoop env fuel arr i).pubs, ∀ r ∈ snap,
        recordInv env.featuresLen r := by
  intro fuel
  induction fuel with
  | zero =>
    intro arr i _ _ snap hsnap
    simp [resolveLoop] at hsnap
  | succ fuel ih =>
    intro arr i hall hclean snap hsnap
    rw [resolveLoop] at hsnap
    by_cases h : i < arr.length
    · rw [dif_pos h] at hsnap
      have hcl := hclean i h (le_refl i)
      -- the loading record satisfies the invariant
      have hclG : (arr[i]).geoJson = none := hcl.2.1
      have hclE : (arr[i]).errorMessage = none := hcl.2.2
      have hloadInv : recordInv env.featuresLen
          { arr.get ⟨i, h⟩ with status := .loading } := by
        refine ⟨?_, ?_, ?_⟩ <;> simp [hclG, hclE]
      have hloadingAll : ∀ r ∈ arr.set i { arr.get ⟨i, h⟩ with status := .loading },
          recordInv env.featuresLen r := by
        intro r hr
        rcases List.mem_or_eq_of_mem_set hr with hr | rfl
        · exact hall r hr
        · exact hloadInv
      have hrecInv := resolveRecord_record_inv env (arr.get ⟨i, h⟩) hcl.2.1 hcl.2.2
      -- the updated array after storing the terminal record
      have hdoneAll : ∀ r ∈ (arr.set i { arr.get ⟨i, h⟩ with status := .loading }).set i
          (resolveRecord env (arr.get ⟨i, h⟩)).record, recordInv env.featuresLen r := by
        intro r hr
        rcases List.mem_or_eq_of_mem_set hr with hr | rfl
        · exact hloadingAll r hr
        · exact hrecInv.1
      have hdoneClean : ∀ j (hj : j < ((arr.set i { arr.get ⟨i, h⟩ with status := .loading }).set i
          (resolveRecord env (arr.get ⟨i, h⟩)).record).length), i + 1 ≤ j →
          (((arr.set i { arr.get ⟨i, h⟩ with status := .loading }).set i
            (resolveRecord env (arr.get ⟨i, h⟩)).record).get ⟨j, hj⟩).status = .pending ∧
          (((arr.set i { arr.get ⟨i, h⟩ with status := .loading }).set i
            (resolveRecord env (arr.get ⟨i, h⟩)).record).get ⟨j, hj⟩).geoJson = none ∧
          (((arr.set i { arr.get ⟨i, h⟩ with status := .loading }).set i
            (resolveRecord env (arr.get ⟨i, h⟩)).record).get ⟨j, hj⟩).errorMessage = none := by
        intro j hj hij
        have hne : i ≠ j := by omega
        have hj2 : j < (arr.set i { arr.get ⟨i, h⟩ with status := .loading }).length := by
          simpa using hj
        have hj3 : j < arr.length := by simpa using hj
        rw [List.get_set_ne hne hj, List.get_set_ne hne hj2]
        exact hclean j hj3 (by omega)
      rcases hres : resolveRecord env (arr.get ⟨i, h⟩) with r | ⟨r, reqs⟩ <;>
          simp only [hres] at hsnap
      · -- commune failed: published lists are arrLoading and the recursion's
        rcases List.mem_cons.mp hsnap with rfl | hsnap
        · exact hloadingAll
        · -- note the stored record here is r = (resolveRecord ..).record
          have : (resolveRecord env (arr.get ⟨i, h⟩)).record = r := by rw [hres]; rfl
          rw [this] at hdoneAll hdoneClean
          exact ih _ (i + 1) hdoneAll hdoneClean snap hsnap
      · rcases List.mem_cons.mp hsnap with rfl | hsnap
        · exact hloadingAll
        · have hrec : (resolveRecord env (arr.get ⟨i, h⟩)).record = r := by rw [hres]; rfl
          rw [hrec] at hdoneAll hdoneClean
          rcases List.mem_cons.mp hsnap with rfl | hsnap
          · exact hdoneAll
          · exact ih _ (i + 1) hdoneAll hdoneClean snap hsnap
    · rw [dif_neg h] at hsnap
      simp at hsnap

/-- C3: for every record at every published state of a resolution run,
`geoJson` is present iff the record's status is success (and the stored
feature collection is then non-empty), `errorMessage` is present iff the
status is error, and records with status pending or loading carry
neither field. -/
theorem c3_published_record_field_invariant {J : Type} (env : ResolveEnv J) (queries : List ParcelTriple) :
    ∀ snap ∈ (handleProcess env queries).pubs, ∀ r ∈ snap,
      (r.geoJson.isSome ↔ r.status = .success) ∧
      (∀ j, r.geoJson = some j → ∃ n, env.featuresLen j = some n ∧ 0 < n) ∧
      (r.errorMessage.isSome ↔ r.status = .error) ∧
      ((r.status = .pending ∨ r.status = .loading) →
        r.geoJson = none ∧ r.errorMessage = none) := by
  intro snap hsnap r hr
  have hinv : recordInv env.featuresLen r := by
    unfold handleProcess at hsnap
    simp only [List.mem_cons] at hsnap
    rcases hsnap with rfl | rfl | hsnap
    · cases hr
    · obtain ⟨pi, _, rfl⟩ := List.mem_map.mp hr
      exact ⟨by simp [initRecord], by simp [initRecord], by simp [initRecord]⟩
    · refine resolveLoop_pubs_inv env _ _ 0 ?_ ?_ snap hsnap r hr
      · intro r hr
        obtain ⟨pi, _, rfl⟩ := List.mem_map.mp hr
        exact ⟨by simp [initRecord], by simp [initRecord], by simp [initRecord]⟩
      · intro j hj _
        have hjq : j < queries.enum.length := by simpa using hj
        constructor
        · simp [List.getElem_map, List.getElem_enum, initRecord]
        constructor
        · simp [List.getElem_map, List.getElem_enum, initRecord]
        · simp [List.getElem_map, List.getElem_enum, initRecord]
  refine ⟨hinv.1, hinv.2.2, hinv.2.1, ?_⟩
  intro hst
  constructor
  · rcases hst with hst | hst <;>
      (rw [← Option.not_isSome_iff_eq_none]; rw [hinv.1, hst]; simp)
  · rcases hst with hst | hst <;>
      (rw [← Option.not_isSome_iff_eq_none]; rw [hinv.2.1, hst]; simp)

/-- Witness for C3 at the initial all-pending snapshot of a concrete
run. -/
theorem c3_published_record_field_invariant_witness :
    (([initRecord 0 ⟨"SCHORBACH", "C", "0584"⟩] : List (ParsedParcel Unit)) ∈
      (handleProcess (⟨fun _ => .resp true (.value (some [])), fun _ _ _ => .reject,
        fun _ => some 1⟩ : ResolveEnv Unit) [⟨"SCHORBACH", "C", "0584"⟩]).pubs) ∧
    (initRecord (J := Unit) 0 ⟨"SCHORBACH", "C", "0584"⟩ ∈
      ([initRecord 0 ⟨"SCHORBACH", "C", "0584"⟩] : List (ParsedParcel Unit))) ∧
    (((initRecord (J := Unit) 0 ⟨"SCHORBACH", "C", "0584"⟩).geoJson.isSome ↔
        (initRecord (J := Unit) 0 ⟨"SCHORBACH", "C", "0584"⟩).status = .success) ∧
     (∀ j, (initRecord (J := Unit) 0 ⟨"SCHORBACH", "C", "0584"⟩).geoJson = some j →
        ∃ n, (fun _ => some 1) j = some n ∧ 0 < n) ∧
     ((initRecord (J := Unit) 0 ⟨"SCHORBACH", "C", "0584"⟩).errorMessage.isSome ↔
        (initRecord (J := Unit) 0 ⟨"SCHORBACH", "C", "0584"⟩).status = .error) ∧
     (((initRecord (J := Unit) 0 ⟨"SCHORBACH", "C", "0584"⟩).status = .pending ∨
        (initRecord (J := Unit) 0 ⟨"SCHORBACH", "C", "0584"⟩).status = .loading) →
        (initRecord (J := Unit) 0 ⟨"SCHORBACH", "C", "0584"⟩).geoJson = none ∧
        (initRecord (J := Unit) 0 ⟨"SCHORBACH", "C", "0584"⟩).errorMessage = none)) :=
  ⟨by decide, by decide,
   c3_published_record_field_invariant (⟨fun _ => .resp true (.value (some [])), fun _ _ _ => .reject,
      fun _ => some 1⟩ : ResolveEnv Unit) [⟨"SCHORBACH", "C", "0584"⟩]
     [initRecord 0 ⟨"SCHORBACH", "C", "0584"⟩] (by decide)
     (initRecord 0 ⟨"SCHORBACH", "C", "0584"⟩) (by decide)⟩

lemma resolveLoop_final_get? {J : Type} (env : ResolveEnv J) :
    ∀ (fuel : Nat) (arr : List (ParsedParcel J)) (i j : Nat),
      arr.length ≤ i + fuel →
      (resolveLoop env fuel arr i).final.get? j =
        if j < i then arr.get? j
        else if hj : j < arr.length then
          some ((resolveRecord env (arr.get ⟨j, hj⟩)).record)
        else none := by
  intro fuel
  induction fuel with
  | zero =>
    intro arr i j hfuel
    simp only [resolveLoop]
    by_cases hji : j < i
    · rw [if_pos hji]
    · rw [if_neg hji]
      have hlen : ¬ j < arr.length := by omega
      rw [dif_neg hlen]
      have hlj : arr.length ≤ j := by omega
      exact List.get?_eq_none.mpr hlj
  | succ fuel ih =>
    intro arr i j hfuel
    rw [resolveLoop]
    by_cases h : i < arr.length
    · rw [dif_pos h]
      rcases hres : resolveRecord env (arr.get ⟨i, h⟩) with r | ⟨r, reqs⟩ <;>
        simp only [hres] <;>
        (rw [ih ((arr.set i { arr.get ⟨i, h⟩ with status := .loading }).set i r) (i + 1) j
            (by simp; omega)]) <;>
        (by_cases hji : j < i
         · rw [if_pos (by omega : j < i + 1), if_pos hji]
           rw [List.get?_set_ne _ _ (by omega : i ≠ j), List.get?_set_ne _ _ (by omega : i ≠ j)]
         · by_cases hjeq : j = i
           · subst hjeq
             rw [if_pos (by omega : j < j + 1), if_neg hji, dif_pos h]
             rw [List.get?_eq_getElem?, List.getElem?_set_self (by simpa using h), hres]
             rfl
           · rw [if_neg (by omega : ¬ j < i + 1), if_neg hji]
             have hlen2 : ((arr.set i { arr.get ⟨i, h⟩ with status := .loading }).set i r).length
                 = arr.length := by simp
             by_cases hjl : j < arr.length
             · rw [dif_pos hjl, dif_pos (by omega : j < ((arr.set i
                   { arr.get ⟨i, h⟩ with status := .loading }).set i r).length)]
               congr 2
               rw [List.get_set_ne (by omega : i ≠ j), List.get_set_ne (by omega : i ≠ j)]
             · rw [dif_neg hjl, dif_neg (by omega : ¬ j < ((arr.set i
                   { arr.get ⟨i, h⟩ with status := .loading }).set i r).length)])
    · rw [dif_neg h]
      have hji : ¬ j < arr.length ∨ j < i := by omega
      by_cases hj2 : j < i
      · rw [if_pos hj2]
      · rw [if_neg hj2]
        have hlen : ¬ j < arr.length := by omega
        rw [dif_neg hlen]
        have hlj : arr.length ≤ j := by omega
        exact List.get?_eq_none.mpr hlj

lemma resolveLoop_trace_mem {J : Type} (env : ResolveEnv J) :
    ∀ (fuel : Nat) (arr : List (ParsedParcel J)) (i : Nat)
      (t : Nat × GeoRequest), t ∈ (resolveLoop env fuel arr i).geoTrace →
      i ≤ t.1 ∧ ∃ (hj : t.1 < arr.length) (r : ParsedParcel J) (reqs : List GeoRequest),
        resolveRecord env (arr.get ⟨t.1, hj⟩) = .resolved r reqs ∧ t.2 ∈ reqs := by
  intro fuel
  induction fuel with
  | zero =>
    intro arr i t ht
    simp [resolveLoop] at ht
  | succ fuel ih =>
    intro arr i t ht
    rw [resolveLoop] at ht
    by_cases h : i < arr.length
    · rw [dif_pos h] at ht
      rcases hres : resolveRecord env (arr.get ⟨i, h⟩) with r | ⟨r, reqs⟩ <;>
        simp only [hres] at ht
      · -- commune failed: the trace comes from the recursion
        obtain ⟨hle, hj2, r2, reqs2, hres2, hmem2⟩ :=
          ih ((arr.set i { arr.get ⟨i, h⟩ with status := .loading }).set i r) (i + 1) t ht
        have hj3 : t.1 < arr.length := by simpa using hj2
        refine ⟨by omega, hj3, r2, reqs2, ?_, hmem2⟩
        rw [← hres2]
        congr 1
        rw [List.get_set_ne (by omega : i ≠ t.1), List.get_set_ne (by omega : i ≠ t.1)]
      · rcases List.mem_append.mp ht with ht | ht
        · obtain ⟨q, hq, rfl⟩ := List.mem_map.mp ht
          exact ⟨le_refl i, h, r, reqs, hres, hq⟩
        · obtain ⟨hle, hj2, r2, reqs2, hres2, hmem2⟩ :=
            ih ((arr.set i { arr.get ⟨i, h⟩ with status := .loading }).set i r) (i + 1) t ht
          have hj3 : t.1 < arr.length := by simpa using hj2
          refine ⟨by omega, hj3, r2, reqs2, ?_, hmem2⟩
          rw [← hres2]
          congr 1
          rw [List.get_set_ne (by omega : i ≠ t.1), List.get_set_ne (by omega : i ≠ t.1)]
    · rw [dif_neg h] at ht
      simp at ht

/-- C5: for every record whose commune lookup yields no response, an
empty result set, or a transport error (`getInseeCode` returns `none`),
the record ends with status error and message "Commune not found", the
geometry stage is never invoked for that record, `inseeCode` and
`geoJson` stay absent on it, and every record of the run still reaches a
terminal status. -/
theorem c5_commune_not_found_isolation {J : Type} (env : ResolveEnv J) (queries : List ParcelTriple) (i : Nat)
    (hi : i < queries.length)
    (hfail : getInseeCode env.fetchCommunes (queries.get ⟨i, hi⟩).communeName = none) :
    (∃ r, (handleProcess env queries).final.get? i = some r ∧
       r.status = .error ∧ r.errorMessage = some "Commune not found" ∧
       r.inseeCode = none ∧ r.geoJson = none) ∧
    (∀ t ∈ (handleProcess env queries).geoTrace, t.1 ≠ i) ∧
    (∀ r ∈ (handleProcess env queries).final,
       r.status = .error ∨ r.status = .success) := by
  have hleni : (queries.enum.map (fun pi => initRecord (J := J) pi.1 pi.2)).length
      = queries.length := by simp
  have hfin : (handleProcess env queries).final =
      (resolveLoop env (queries.enum.map (fun pi => initRecord pi.1 pi.2)).length
        (queries.enum.map (fun pi => initRecord pi.1 pi.2)) 0).final := rfl
  have htr : (handleProcess env queries).geoTrace =
      (resolveLoop env (queries.enum.map (fun pi => initRecord pi.1 pi.2)).length
        (queries.enum.map (fun pi => initRecord pi.1 pi.2)) 0).geoTrace := rfl
  have hgetInit : ∀ (j : Nat)
      (hj : j < (queries.enum.map (fun pi => initRecord (J := J) pi.1 pi.2)).length),
      (queries.enum.map (fun pi => initRecord (J := J) pi.1 pi.2)).get ⟨j, hj⟩ =
        initRecord j (queries.get ⟨j, by simpa using hj⟩) := by
    intro j hj
    simp [List.get_eq_getElem, List.getElem_map, List.getElem_enum]
  have hresi : resolveRecord env (initRecord (J := J) i (queries.get ⟨i, hi⟩)) =
      .communeFailed { initRecord (J := J) i (queries.get ⟨i, hi⟩) with
        status := .error, errorMessage := some "Commune not found" } := by
    have hc : getInseeCode env.fetchCommunes
        (initRecord (J := J) i (queries.get ⟨i, hi⟩)).communeName = none := hfail
    unfold resolveRecord
    rw [hc]
  refine ⟨?_, ?_, ?_⟩
  · rw [hfin, resolveLoop_final_get? env _ _ 0 i (by omega)]
    rw [if_neg (by omega : ¬ i < 0), dif_pos (by omega : i < (queries.enum.map
      (fun pi => initRecord (J := J) pi.1 pi.2)).length)]
    rw [hgetInit i (by omega), hresi]
    exact ⟨_, rfl, rfl, rfl, rfl, rfl⟩
  · intro t ht
    rw [htr] at ht
    obtain ⟨_, hj, r2, reqs2, hres2, _⟩ := resolveLoop_trace_mem env _ _ 0 t ht
    intro hti
    subst hti
    rw [hgetInit t.1 hj] at hres2
    have : (⟨t.1, by simpa using hj⟩ : Fin queries.length) = ⟨t.1, hi⟩ := rfl
    rw [this] at hres2
    rw [hresi] at hres2
    cases hres2
  · intro r hr
    rw [hfin] at hr
    obtain ⟨n, hn⟩ := List.mem_iff_get?.mp hr
    rw [resolveLoop_final_get? env _ _ 0 n (by omega)] at hn
    rw [if_neg (by omega : ¬ n < 0)] at hn
    by_cases hnl : n < (queries.enum.map (fun pi => initRecord (J := J) pi.1 pi.2)).length
    · rw [dif_pos hnl] at hn
      have hclean : ((queries.enum.map (fun pi => initRecord (J := J) pi.1 pi.2)).get
          ⟨n, hnl⟩).geoJson = none ∧ ((queries.enum.map
          (fun pi => initRecord (J := J) pi.1 pi.2)).get ⟨n, hnl⟩).errorMessage = none := by
        rw [hgetInit n hnl]
        exact ⟨rfl, rfl⟩
      have hterm := (resolveRecord_record_inv env _ hclean.1 hclean.2).2
      have : r = (resolveRecord env ((queries.enum.map
          (fun pi => initRecord (J := J) pi.1 pi.2)).get ⟨n, hnl⟩)).record := by
        injection hn.symm
      rw [this]
      exact hterm
    · rw [dif_neg hnl] at hn
      cases hn

/-- Witness for C5 on a one-record run whose commune lookup returns an
empty result set. -/
theorem c5_commune_not_found_isolation_witness :
    0 < ([⟨"SCHORBACH", "C", "0584"⟩] : List ParcelTriple).length ∧
    getInseeCode (fun _ => FetchOutcome.resp true (JsonOutcome.value (some [])))
      "SCHORBACH" = none ∧
    ((∃ r, (handleProcess (⟨fun _ => .resp true (.value (some [])), fun _ _ _ => .reject,
          fun _ => some 1⟩ : ResolveEnv Unit) [⟨"SCHORBACH", "C", "0584"⟩]).final.get? 0 =
            some r ∧
        r.status = .error ∧ r.errorMessage = some "Commune not found" ∧
        r.inseeCode = none ∧ r.geoJson = none) ∧
     (∀ t ∈ (handleProcess (⟨fun _ => .resp true (.value (some [])), fun _ _ _ => .reject,
          fun _ => some 1⟩ : ResolveEnv Unit) [⟨"SCHORBACH", "C", "0584"⟩]).geoTrace,
        t.1 ≠ 0) ∧
     (∀ r ∈ (handleProcess (⟨fun _ => .resp true (.value (some [])), fun _ _ _ => .reject,
          fun _ => some 1⟩ : ResolveEnv Unit) [⟨"SCHORBACH", "C", "0584"⟩]).final,
        r.status = .error ∨ r.status = .success)) :=
  ⟨by decide, by decide,
   c5_commune_not_found_isolation (⟨fun _ => .resp true (.value (some [])), fun _ _ _ => .reject,
      fun _ => some 1⟩ : ResolveEnv Unit) [⟨"SCHORBACH", "C", "0584"⟩] 0
     (by decide) (by decide)⟩

/-- C1: contrary to the claim, a record that fails at the commune-lookup
stage is not followed by a publication of the list before the next
record begins — the loop `continue`s without calling `setParcels` — and
when that record is the last of the run its error state is never
published at all: in this one-record run the final list holds the error
record while the published snapshots stop at the loading state, no
snapshot containing any terminal status. -/
theorem c1_commune_failure_never_published :
    (handleProcess (⟨fun _ => .resp true (.value (some [])), fun _ _ _ => .reject,
        fun _ => some 1⟩ : ResolveEnv Unit) [⟨"SCHORBACH", "C", "0584"⟩]).final =
      [{ initRecord 0 ⟨"SCHORBACH", "C", "0584"⟩ with
          status := .error, errorMessage := some "Commune not found" }] ∧
    (handleProcess (⟨fun _ => .resp true (.value (some [])), fun _ _ _ => .reject,
        fun _ => some 1⟩ : ResolveEnv Unit) [⟨"SCHORBACH", "C", "0584"⟩]).pubs =
      [[], [initRecord 0 ⟨"SCHORBACH", "C", "0584"⟩],
       [{ initRecord 0 ⟨"SCHORBACH", "C", "0584"⟩ with status := .loading }]] ∧
    ((handleProcess (⟨fun _ => .resp true (.value (some [])), fun _ _ _ => .reject,
        fun _ => some 1⟩ : ResolveEnv Unit) [⟨"SCHORBACH", "C", "0584"⟩]).pubs.all
      (fun snap => snap.all
        (fun r => r.status != Status.error && r.status != Status.success))) = true :=
  ⟨by decide, by decide, by decide⟩
